import Mathlib

/-!
Shallow embedding of the bare-metal allocation engine (candidate filtering,
node locking, allocation scheduling, allocation destruction and dispatch).

The conductor sources (`ironic/conductor/allocations.py`,
`ironic/conductor/manager.py`) are not present in this tree; only their unit
tests are (`ironic/tests/unit/conductor/test_allocations.py`).  The
definitions below are therefore modelled from the specification
(spec.md §3, §4.1-§4.4), with the unit tests pinning the details the spec
leaves open (error message wording, pass/attempt structure, the maintenance
override on destruction).
-/

/-- Provisioning state of a node.  The spec (§3) only requires that
`available` is the sole eligible state and that some states are transient
(mid-provisioning); the states listed here are the ones the unit tests
exercise. -/
inductive ProvisionState where
  | available
  | manageable
  | deploying
  | cleaning
  | active
  deriving DecidableEq, Repr

/-- Allocation lifecycle state (§3): `allocating`, then terminal `active`
or terminal `error`. -/
inductive AllocState where
  | allocating
  | active
  | error
  deriving DecidableEq, Repr

/-- Modelled from the spec: the Node record of §3 (Node Inventory Store).
`power_state` is `none` when unknown/undefined; `reservation` is the
exclusive lock owner token; `instance_uuid`/`allocation_id` are the
association fields set at commit. -/
structure Node where
  id : Nat
  uuid : String
  power_state : Option String
  provision_state : ProvisionState
  maintenance : Bool
  resource_class : String
  traits : List String
  instance_uuid : Option String
  allocation_id : Option Nat
  reservation : Option String
  deriving DecidableEq, Repr

/-- Modelled from the spec: the Allocation record of §3 (Allocation Store).
`candidate_nodes = []` means no candidate restriction was given. -/
structure Allocation where
  id : Nat
  uuid : String
  state : AllocState
  resource_class : String
  traits : List String
  candidate_nodes : List String
  node_id : Option Nat
  last_error : Option String
  conductor_affinity : Option Nat
  deriving DecidableEq, Repr

/-- Modelled from the spec: the eligibility predicate of §4.1 (Candidate
Filter): exact resource-class match, provision state `available`,
maintenance off, known power state, not associated, trait superset, and
membership in `candidate_nodes` when that list was given.  The same
predicate is used for the post-lock re-validation of §4.3 step 4. -/
def nodeMatches (a : Allocation) (n : Node) : Bool :=
  decide (n.resource_class = a.resource_class)
  && decide (n.provision_state = ProvisionState.available)
  && !n.maintenance
  && n.power_state.isSome
  && n.instance_uuid.isNone
  && a.traits.all (fun t => n.traits.contains t)
  && (a.candidate_nodes.isEmpty || a.candidate_nodes.contains n.uuid)

/-- Look a node up by UUID (first match). -/
def findNode (nodes : List Node) (uuid : String) : Option Node :=
  nodes.find? (fun n => n.uuid == uuid)

/-- Replace every node satisfying `p` by its image under `f` (the
persistence step of a per-node field update). -/
def updateNodes (p : Node → Bool) (f : Node → Node) (nodes : List Node) :
    List Node :=
  nodes.map (fun n => if p n then f n else n)

inductive LockError where
  | alreadyLocked
  | nodeNotFound
  deriving DecidableEq, Repr

/-- Modelled from the spec: §4.2 Node Lock Manager.  `acquire` is the
compare-and-set on the node's `reservation` field: it fails immediately
with `alreadyLocked` when the reservation is already held (re-entry by the
same owner is disallowed with the same error), and otherwise returns the
fresh node snapshot together with the updated store. -/
def acquire (nodes : List Node) (uuid owner : String) :
    Except LockError (Node × List Node) :=
  match findNode nodes uuid with
  | none => .error .nodeNotFound
  | some n =>
    if n.reservation.isSome then .error .alreadyLocked
    else
      let locked := { n with reservation := some owner }
      .ok (locked, updateNodes (fun m => m.uuid == uuid) (fun _ => locked) nodes)

/-- Modelled from the spec: §4.2, `release` clears `reservation`
unconditionally (idempotent). -/
def release (nodes : List Node) (uuid : String) : List Node :=
  updateNodes (fun m => m.uuid == uuid) (fun n => { n with reservation := none })
    nodes

/-- Suffix naming the required traits, appended to failure reasons when
traits were requested (§4.3 step 2). -/
def traitsSuffix (traits : List String) : String :=
  if traits.isEmpty then "" else " and traits " ++ String.intercalate ", " traits

/-- Failure reason for an empty candidate set without a candidate list
(§4.3 step 2; wording pinned by `test_nodes_filtered_out`). -/
def msgNoAvailable (rc : String) (traits : List String) : String :=
  "no available nodes match the resource class " ++ rc ++ traitsSuffix traits

/-- Failure reason for an empty candidate set when `candidate_nodes` was
given (§4.3 step 2; wording pinned by `test_nodes_candidates_do_not_match`). -/
def msgNoneRequested (rc : String) (traits : List String) : String :=
  "none of the requested nodes are available and match the resource class "
    ++ rc ++ traitsSuffix traits

/-- Failure reason when every lockable candidate was disqualified by the
post-lock re-validation (§4.3 step 5; wording pinned by
`test_nodes_changed_after_lock`). -/
def msgAllFiltered : String := "all nodes were filtered out"

/-- Failure reason when the retry passes were exhausted under lock
contention (§4.3 step 5; wording pinned by `test_nodes_locked`). -/
def msgContended (n : Nat) : String :=
  "could not reserve any of " ++ toString n ++ " candidate nodes"

/-- Record a terminal failure on the allocation (§4.3: terminal `error`
with the reason in `last_error`). -/
def allocFailed (a : Allocation) (msg : String) : Allocation :=
  { a with state := .error, last_error := some msg }

/-- Commit step, node side (§4.3 step 6): set the association fields; the
lock is released as part of leaving the locked scope. -/
def commitNode (a : Allocation) (n : Node) : Node :=
  { n with instance_uuid := some a.uuid, allocation_id := some a.id,
           reservation := none }

/-- Commit step, allocation side (§4.3 step 6): terminal `active`, bound
node recorded, error cleared. -/
def commitAlloc (a : Allocation) (n : Node) : Allocation :=
  { a with state := .active, node_id := some n.id, last_error := none }

/-- Outcome of one pass over the shuffled candidates: either a successful
commit, or exhaustion with a single pass-wide flag recording whether any
candidate was found already locked. -/
inductive PassOutcome where
  | committed (alloc : Allocation) (nodes : List Node)
  | exhausted (sawLocked : Bool)
  deriving Repr

/-- Modelled from the spec: §4.3 step 4, one pass over the ordered
candidate UUIDs.  `drift` models the in-memory mutation of a node between
the filter snapshot and lock acquisition (identity when nothing changed);
the freshly re-fetched snapshot `drift n` is re-validated with the full
predicate.  A candidate that is already locked sets the pass-wide
contention flag and the pass continues with the next candidate; a
candidate that no longer qualifies is released and skipped.  The returned
list logs every lock-acquisition attempt in order. -/
def attempt_pass (a : Allocation) (drift : Node → Node) (nodes : List Node) :
    List String → PassOutcome × List String
  | [] => (.exhausted false, [])
  | u :: rest =>
    match findNode nodes u with
    | none =>
      let r := attempt_pass a drift nodes rest
      (r.1, u :: r.2)
    | some n =>
      if n.reservation.isSome then
        match attempt_pass a drift nodes rest with
        | (.committed a2 ns, log) => (.committed a2 ns, u :: log)
        | (.exhausted _, log) => (.exhausted true, u :: log)
      else
        let fresh := drift n
        if nodeMatches a fresh then
          (.committed (commitAlloc a fresh)
            (updateNodes (fun m => m.uuid == u) (fun _ => commitNode a fresh)
              nodes), [u])
        else
          let r := attempt_pass a drift nodes rest
          (r.1, u :: r.2)

/-- Modelled from the spec: §4.3 step 5, the bounded pass loop.  Each
iteration re-shuffles (`shuffle passIdx candidates`) and runs one pass.
A pass that exhausts without any `alreadyLocked` is terminal
("all nodes were filtered out", no retry); a contended pass is retried
until the pass budget runs out, which yields the contention failure naming
the candidate count. -/
def allocate_node (a : Allocation) (drift : Node → Node)
    (shuffle : Nat → List String → List String) (nodes : List Node)
    (candidates : List String) :
    Nat → Nat → Allocation × List Node × List String
  | 0, _ => (allocFailed a (msgContended candidates.length), nodes, [])
  | passesLeft + 1, passIdx =>
    match attempt_pass a drift nodes (shuffle passIdx candidates) with
    | (.committed a2 ns, log) => (a2, ns, log)
    | (.exhausted sawLocked, log) =>
      if sawLocked then
        let r := allocate_node a drift shuffle nodes candidates passesLeft
          (passIdx + 1)
        (r.1, r.2.1, log ++ r.2.2)
      else
        (allocFailed a msgAllFiltered, nodes, log)

/-- Configuration surface consumed by the Scheduler (§6): the maximum
number of lock-retry passes beyond the first (the inter-pass delay has no
observable effect in this model). -/
structure Config where
  node_locked_retry_attempts : Nat

/-- Modelled from the spec: §4.3 Allocation Scheduler, `do_allocate`.
Queries the Candidate Filter against the current store; an empty result is
an immediate terminal error whose reason distinguishes the candidate-list
case from the generic case; otherwise runs `1 + node_locked_retry_attempts`
passes.  Returns the final allocation, the final node store, and the
ordered log of lock-acquisition attempts (by node UUID). -/
def do_allocate (cfg : Config) (shuffle : Nat → List String → List String)
    (drift : Node → Node) (a : Allocation) (nodes : List Node) :
    Allocation × List Node × List String :=
  let candidates := (nodes.filter (nodeMatches a)).map (fun n => n.uuid)
  if candidates.isEmpty then
    if a.candidate_nodes.isEmpty then
      (allocFailed a (msgNoAvailable a.resource_class a.traits), nodes, [])
    else
      (allocFailed a (msgNoneRequested a.resource_class a.traits), nodes, [])
  else
    allocate_node a drift shuffle nodes candidates
      (cfg.node_locked_retry_attempts + 1) 0

inductive DestroyError where
  | invalidState
  | nodeNotFound
  deriving DecidableEq, Repr

/-- A provisioning state that is transient (mid-provisioning) in the sense
of §3/§4.4. -/
def transientState : ProvisionState → Bool
  | .deploying => true
  | .cleaning => true
  | _ => false

/-- A stable terminal provisioning state (§4.4): one that is not
transient. -/
def stableTerminalState (s : ProvisionState) : Bool := !transientState s

/-- Clear a node's association fields (§3: `instance_uuid` and
`allocation_id` are set together or cleared together). -/
def clearAssociation (n : Node) : Node :=
  { n with instance_uuid := none, allocation_id := none }

/-- Modelled from the spec: §4.4 destruction (conductor manager
`destroy_allocation`, not in this tree).  The spec rejects destruction when
the bound node is mid-provisioning; the unit tests additionally pin that a
deployed node (provision state `active`) is rejected too
(`test_destroy_allocation_with_active_node`) and that a node in
maintenance is always allowed
(`test_destroy_allocation_with_node_in_maintenance`).  On success the
node's association is cleared and the allocation record deleted. -/
def destroy_allocation (nodes : List Node) (allocs : List Allocation)
    (a : Allocation) : Except DestroyError (List Node × List Allocation) :=
  let allocs2 := allocs.filter (fun x => !(x.uuid == a.uuid))
  match a.node_id with
  | none => .ok (nodes, allocs2)
  | some nid =>
    match nodes.find? (fun n => n.id == nid) with
    | none => .error .nodeNotFound
    | some n =>
      if !n.maintenance
          && (decide (n.provision_state = ProvisionState.active)
              || transientState n.provision_state) then
        .error .invalidState
      else
        .ok (updateNodes (fun m => m.id == nid) clearAssociation nodes, allocs2)

/-- Constraints of an allocation-creation request (§6 Allocation API). -/
structure AllocRequest where
  resource_class : String
  traits : List String
  candidate_nodes : List String

/-- Result of the Dispatcher's create call: the returned allocation, the
updated Allocation Store, and the list of Scheduler runs handed to the
asynchronous worker pool (by allocation UUID). -/
structure CreateResult where
  alloc : Allocation
  store : List Allocation
  spawned : List String

/-- Modelled from the spec: §4.4 Dispatcher.  Persists the allocation in
`allocating` state with the generated identity and the accepting
conductor recorded as `conductor_affinity`, schedules the Scheduler to run
exactly once asynchronously (one entry in `spawned`), and returns the
persisted allocation without running the Scheduler. -/
def create_allocation (conductorId : Nat) (genId : Nat) (genUuid : String)
    (req : AllocRequest) (store : List Allocation) : CreateResult :=
  let a : Allocation :=
    { id := genId, uuid := genUuid, state := .allocating,
      resource_class := req.resource_class, traits := req.traits,
      candidate_nodes := req.candidate_nodes, node_id := none,
      last_error := none, conductor_affinity := some conductorId }
  { alloc := a, store := a :: store, spawned := [genUuid] }

/-! ## Helper lemmas -/

theorem find?_updateNodes (p : Node → Bool) (f : Node → Node)
    (hp : ∀ m, p m = true → p (f m) = true) :
    ∀ (l : List Node) (n : Node), List.find? p l = some n →
      List.find? p (updateNodes p f l) = some (f n) := by
  intro l
  induction l with
  | nil => intro n h; simp at h
  | cons m l ih =>
    intro n h
    by_cases hm : p m = true
    · rw [List.find?_cons_of_pos _ hm] at h
      injection h with h
      subst h
      show List.find? p ((if p m then f m else m) :: updateNodes p f l) = _
      rw [if_pos hm]
      exact List.find?_cons_of_pos _ (hp m hm)
    · rw [List.find?_cons_of_neg _ hm] at h
      show List.find? p ((if p m then f m else m) :: updateNodes p f l) = _
      rw [if_neg hm, List.find?_cons_of_neg _ hm]
      exact ih n h

theorem findNode_of_mem_nodup :
    ∀ (nodes : List Node) (n : Node), n ∈ nodes →
      (nodes.map Node.uuid).Nodup → findNode nodes n.uuid = some n := by
  intro nodes
  induction nodes with
  | nil => intro n h _; simp at h
  | cons m l ih =>
    intro n hmem hnd
    rw [List.map_cons, List.nodup_cons] at hnd
    rcases List.mem_cons.mp hmem with rfl | hm
    · exact List.find?_cons_of_pos _ (by simp)
    · have hne : (m.uuid == n.uuid) = false := by
        rw [beq_eq_false_iff_ne]
        intro he
        exact hnd.1 (he ▸ List.mem_map_of_mem Node.uuid hm)
      unfold findNode
      rw [List.find?_cons_of_neg _ (by simp [hne])]
      exact ih n hm hnd.2

/-! ## Test fixtures (concrete stores mirroring the unit-test setups) -/

def nodeA : Node :=
  { id := 1, uuid := "node-a", power_state := some "power off",
    provision_state := .available, maintenance := false,
    resource_class := "x-large", traits := [], instance_uuid := none,
    allocation_id := none, reservation := none }

def nodeB : Node := { nodeA with id := 2, uuid := "node-b" }

def allocA : Allocation :=
  { id := 42, uuid := "alloc-a", state := .allocating,
    resource_class := "x-large", traits := [], candidate_nodes := [],
    node_id := none, last_error := none, conductor_affinity := none }

def allocBound : Allocation := { allocA with node_id := some 1 }

def nodeActive : Node :=
  { nodeA with
      provision_state := .active,
      instance_uuid := some "alloc-a", allocation_id := some 42 }

def nodeDeploy : Node := { nodeActive with provision_state := .deploying }

def nodeMaint : Node := { nodeActive with maintenance := true }

def noShuffle : Nat → List String → List String := fun _ l => l

def nodeSmall : Node := { nodeA with resource_class := "x-small" }

def allocCand : Allocation := { allocA with candidate_nodes := ["node-b"] }

/-! ## Claim theorems -/

/-- C8: the Dispatcher persists the allocation in `allocating` state with
the generated identity and the accepting conductor as
`conductor_affinity`, schedules the Scheduler exactly once, and returns
the persisted allocation, still in `allocating` state. -/
theorem dispatcher_create_spawns_once (conductorId genId : Nat)
    (genUuid : String) (req : AllocRequest) (store : List Allocation) :
    (create_allocation conductorId genId genUuid req store).alloc.state
        = AllocState.allocating
      ∧ (create_allocation conductorId genId genUuid req store).alloc.uuid
        = genUuid
      ∧ (create_allocation conductorId genId genUuid req store).alloc.conductor_affinity
        = some conductorId
      ∧ (create_allocation conductorId genId genUuid req store).store
        = (create_allocation conductorId genId genUuid req store).alloc :: store
      ∧ (create_allocation conductorId genId genUuid req store).spawned
        = [(create_allocation conductorId genId genUuid req store).alloc.uuid] :=
  ⟨rfl, rfl, rfl, rfl, rfl⟩

/-- C9: when the candidate filter query returns the empty set, the
Scheduler performs zero lock-acquisition attempts and leaves the node
store untouched while recording the terminal error. -/
theorem scheduler_empty_filter_no_lock_attempts (cfg : Config)
    (shuffle : Nat → List String → List String) (drift : Node → Node)
    (a : Allocation) (nodes : List Node)
    (hfilter : nodes.filter (nodeMatches a) = []) :
    (do_allocate cfg shuffle drift a nodes).2.2 = []
      ∧ (do_allocate cfg shuffle drift a nodes).2.1 = nodes
      ∧ (do_allocate cfg shuffle drift a nodes).1.state = AllocState.error := by
  have hred : do_allocate cfg shuffle drift a nodes
      = if a.candidate_nodes.isEmpty then
          (allocFailed a (msgNoAvailable a.resource_class a.traits), nodes, [])
        else
          (allocFailed a (msgNoneRequested a.resource_class a.traits), nodes,
            []) := by
    simp [do_allocate, hfilter]
  rw [hred]
  by_cases hc : a.candidate_nodes.isEmpty = true
  · rw [if_pos hc]
    exact ⟨rfl, rfl, rfl⟩
  · rw [if_neg hc]
    exact ⟨rfl, rfl, rfl⟩

/-- C9 witness: a store whose only node fails the resource-class match
produces no lock attempts. -/
theorem scheduler_empty_filter_no_lock_attempts_witness :
    [nodeSmall].filter (nodeMatches allocA) = []
      ∧ ((do_allocate ⟨3⟩ noShuffle id allocA [nodeSmall]).2.2 = []
        ∧ (do_allocate ⟨3⟩ noShuffle id allocA [nodeSmall]).2.1 = [nodeSmall]
        ∧ (do_allocate ⟨3⟩ noShuffle id allocA [nodeSmall]).1.state
          = AllocState.error) :=
  ⟨rfl, scheduler_empty_filter_no_lock_attempts ⟨3⟩ noShuffle id allocA
    [nodeSmall] rfl⟩

/-- C5: when no inventory node satisfies the eligibility predicate, the
Scheduler sets the allocation to `error` with a `last_error` that mentions
the requested resource class. -/
theorem scheduler_no_match_error_mentions_class (cfg : Config)
    (shuffle : Nat → List String → List String) (drift : Node → Node)
    (a : Allocation) (nodes : List Node)
    (hfilter : nodes.filter (nodeMatches a) = []) :
    (do_allocate cfg shuffle drift a nodes).1.state = AllocState.error
      ∧ ∃ p s, (do_allocate cfg shuffle drift a nodes).1.last_error
          = some (p ++ a.resource_class ++ s) := by
  have hred : do_allocate cfg shuffle drift a nodes
      = if a.candidate_nodes.isEmpty then
          (allocFailed a (msgNoAvailable a.resource_class a.traits), nodes, [])
        else
          (allocFailed a (msgNoneRequested a.resource_class a.traits), nodes,
            []) := by
    simp [do_allocate, hfilter]
  rw [hred]
  by_cases hc : a.candidate_nodes.isEmpty = true
  · rw [if_pos hc]
    exact ⟨rfl, "no available nodes match the resource class ",
      traitsSuffix a.traits, rfl⟩
  · rw [if_neg hc]
    exact ⟨rfl,
      "none of the requested nodes are available and match the resource class ",
      traitsSuffix a.traits, rfl⟩

/-- C5 witness: with a single non-matching node the allocation errors and
the reason contains the requested class. -/
theorem scheduler_no_match_error_mentions_class_witness :
    [nodeSmall].filter (nodeMatches allocA) = []
      ∧ ((do_allocate ⟨3⟩ noShuffle id allocA [nodeSmall]).1.state
          = AllocState.error
        ∧ ∃ p s, (do_allocate ⟨3⟩ noShuffle id allocA [nodeSmall]).1.last_error
            = some (p ++ allocA.resource_class ++ s)) :=
  ⟨rfl, scheduler_no_match_error_mentions_class ⟨3⟩ noShuffle id allocA
    [nodeSmall] rfl⟩

/-- C6: when a non-empty `candidate_nodes` list matches no inventory node,
the allocation errors with the candidate-list failure reason, which is a
different string from the generic no-eligible-nodes reason for the same
class and traits. -/
theorem scheduler_candidates_error_kind (cfg : Config)
    (shuffle : Nat → List String → List String) (drift : Node → Node)
    (a : Allocation) (nodes : List Node)
    (hcand : a.candidate_nodes ≠ [])
    (hfilter : nodes.filter (nodeMatches a) = []) :
    (do_allocate cfg shuffle drift a nodes).1.state = AllocState.error
      ∧ (do_allocate cfg shuffle drift a nodes).1.last_error
        = some (msgNoneRequested a.resource_class a.traits)
      ∧ msgNoneRequested a.resource_class a.traits
        ≠ msgNoAvailable a.resource_class a.traits := by
  have hne : a.candidate_nodes.isEmpty = false := by
    cases h : a.candidate_nodes with
    | nil => exact absurd h hcand
    | cons x xs => rfl
  have hred : do_allocate cfg shuffle drift a nodes
      = (allocFailed a (msgNoneRequested a.resource_class a.traits), nodes,
          []) := by
    simp [do_allocate, hfilter, hne]
  refine ⟨by rw [hred]; rfl, by rw [hred]; rfl, ?_⟩
  intro h
  have hlen := congrArg String.length h
  rw [msgNoneRequested, msgNoAvailable] at hlen
  simp only [String.length_append] at hlen
  have h1 : ("none of the requested nodes are available and match the resource class ").length = 71 := rfl
  have h2 : ("no available nodes match the resource class ").length = 44 := rfl
  rw [h1, h2] at hlen
  omega

/-- C6 witness: a candidate list naming only a node that fails the filter
yields the candidate-list failure reason. -/
theorem scheduler_candidates_error_kind_witness :
    allocCand.candidate_nodes ≠ []
      ∧ [nodeA].filter (nodeMatches allocCand) = []
      ∧ ((do_allocate ⟨3⟩ noShuffle id allocCand [nodeA]).1.state
          = AllocState.error
        ∧ (do_allocate ⟨3⟩ noShuffle id allocCand [nodeA]).1.last_error
          = some (msgNoneRequested allocCand.resource_class allocCand.traits)
        ∧ msgNoneRequested allocCand.resource_class allocCand.traits
          ≠ msgNoAvailable allocCand.resource_class allocCand.traits) :=
  ⟨by decide, rfl, scheduler_candidates_error_kind ⟨3⟩ noShuffle id allocCand
    [nodeA] (by decide) rfl⟩

/-- C10: destroying an allocation bound to a node in maintenance succeeds,
clearing the node's association and deleting the allocation record, for
any provision state (including `active`, where destruction would otherwise
be rejected). -/
theorem destroy_maintenance_override (nodes : List Node)
    (allocs : List Allocation) (a : Allocation) (nid : Nat) (n : Node)
    (hbound : a.node_id = some nid)
    (hfind : nodes.find? (fun m => m.id == nid) = some n)
    (hmaint : n.maintenance = true) :
    destroy_allocation nodes allocs a
        = .ok (updateNodes (fun m => m.id == nid) clearAssociation nodes,
               allocs.filter (fun x => !(x.uuid == a.uuid)))
      ∧ List.find? (fun m => m.id == nid)
          (updateNodes (fun m => m.id == nid) clearAssociation nodes)
        = some (clearAssociation n)
      ∧ List.find? (fun x => x.uuid == a.uuid)
          (allocs.filter (fun x => !(x.uuid == a.uuid))) = none := by
  refine ⟨?_, ?_, ?_⟩
  · simp [destroy_allocation, hbound, hfind, hmaint]
  · exact find?_updateNodes (fun m => m.id == nid) clearAssociation (fun m hm => hm) nodes n hfind
  · rw [List.find?_eq_none]
    intro x hx
    have hx2 := (List.mem_filter.mp hx).2
    simp only [Bool.not_eq_true'] at hx2
    simp [hx2]

/-- C10 witness: an `active` node in maintenance, bound to the allocation,
is cleared and the allocation deleted. -/
theorem destroy_maintenance_override_witness :
    allocBound.node_id = some 1
      ∧ List.find? (fun m => m.id == 1) [nodeMaint] = some nodeMaint
      ∧ nodeMaint.maintenance = true
      ∧ (destroy_allocation [nodeMaint] [allocBound] allocBound
          = .ok (updateNodes (fun m => m.id == 1) clearAssociation [nodeMaint],
                 List.filter (fun x => !(x.uuid == allocBound.uuid))
                   [allocBound])
        ∧ List.find? (fun m => m.id == 1)
            (updateNodes (fun m => m.id == 1) clearAssociation [nodeMaint])
          = some (clearAssociation nodeMaint)
        ∧ List.find? (fun x => x.uuid == allocBound.uuid)
            (List.filter (fun x => !(x.uuid == allocBound.uuid)) [allocBound])
          = none) :=
  ⟨rfl, rfl, rfl,
    destroy_maintenance_override [nodeMaint] [allocBound] allocBound 1
      nodeMaint rfl rfl rfl⟩

/-- C4 counterexample: `active` is a stable terminal provisioning state,
yet destroying an allocation bound to an `active` node (not in
maintenance) is rejected with the invalid-state error, contradicting the
claim that every stable terminal state allows destruction. -/
theorem destroy_active_stable_counterexample :
    stableTerminalState nodeActive.provision_state = true
      ∧ nodeActive.maintenance = false
      ∧ allocBound.node_id = some nodeActive.id
      ∧ destroy_allocation [nodeActive] [allocBound] allocBound
        = .error .invalidState :=
  ⟨rfl, rfl, rfl, rfl⟩

/-- C4 (amended): destroying an allocation bound to a node in a stable
terminal provisioning state other than `active` clears the node's
association fields and deletes the allocation record; destroying one
bound to a node in a transient (mid-provisioning) state — or deployed
(`active`) — without maintenance fails with the invalid-state error and
returns no updated stores. -/
theorem destroy_allocation_state_gate (nodes : List Node)
    (allocs : List Allocation) (a : Allocation) (nid : Nat) (n : Node)
    (hbound : a.node_id = some nid)
    (hfind : nodes.find? (fun m => m.id == nid) = some n) :
    (n.maintenance = false →
      (transientState n.provision_state = true
        ∨ n.provision_state = ProvisionState.active) →
      destroy_allocation nodes allocs a = .error .invalidState)
    ∧ (stableTerminalState n.provision_state = true →
        n.provision_state ≠ ProvisionState.active →
        destroy_allocation nodes allocs a
            = .ok (updateNodes (fun m => m.id == nid) clearAssociation nodes,
                   allocs.filter (fun x => !(x.uuid == a.uuid)))
          ∧ List.find? (fun m => m.id == nid)
              (updateNodes (fun m => m.id == nid) clearAssociation nodes)
            = some (clearAssociation n)
          ∧ List.find? (fun x => x.uuid == a.uuid)
              (allocs.filter (fun x => !(x.uuid == a.uuid))) = none) := by
  constructor
  · intro hm ht
    have hcond : (!n.maintenance
        && (decide (n.provision_state = ProvisionState.active)
            || transientState n.provision_state)) = true := by
      rcases ht with ht | ht
      · simp [hm, ht]
      · simp [hm, ht]
    simp [destroy_allocation, hbound, hfind, hcond]
  · intro hs hne
    have h1 : transientState n.provision_state = false := by
      simpa [stableTerminalState, Bool.not_eq_true'] using hs
    have hcond : (!n.maintenance
        && (decide (n.provision_state = ProvisionState.active)
            || transientState n.provision_state)) = false := by
      simp [h1, hne]
    refine ⟨?_, ?_, ?_⟩
    · simp [destroy_allocation, hbound, hfind, hcond]
    · exact find?_updateNodes (fun m => m.id == nid) clearAssociation (fun m hm => hm) nodes n hfind
    · rw [List.find?_eq_none]
      intro x hx
      have hx2 := (List.mem_filter.mp hx).2
      simp only [Bool.not_eq_true'] at hx2
      simp [hx2]

/-- C4 witness: a node in the transient `deploying` state, bound to the
allocation, is rejected with the invalid-state error. -/
theorem destroy_allocation_state_gate_witness :
    allocBound.node_id = some 1
      ∧ List.find? (fun m => m.id == 1) [nodeDeploy] = some nodeDeploy
      ∧ nodeDeploy.maintenance = false
      ∧ transientState nodeDeploy.provision_state = true
      ∧ destroy_allocation [nodeDeploy] [allocBound] allocBound
        = .error .invalidState :=
  ⟨rfl, rfl, rfl, rfl,
    (destroy_allocation_state_gate [nodeDeploy] [allocBound] allocBound 1
      nodeDeploy rfl rfl).1 rfl (Or.inl rfl)⟩

/-! ## Pass and loop lemmas -/

theorem attempt_pass_locked_step (a : Allocation) (drift : Node → Node)
    (nodes : List Node) (u : String) (rest : List String) (n : Node)
    (hfind : findNode nodes u = some n) (hres : n.reservation.isSome = true) :
    attempt_pass a drift nodes (u :: rest)
      = match attempt_pass a drift nodes rest with
        | (.committed a2 ns, log) => (.committed a2 ns, u :: log)
        | (.exhausted _, log) => (.exhausted true, u :: log) := by
  cases hp : attempt_pass a drift nodes rest with
  | mk o log =>
    cases o with
    | committed a2 ns => simp [attempt_pass, hfind, hres, hp]
    | exhausted s => simp [attempt_pass, hfind, hres, hp]

theorem attempt_pass_all_locked (a : Allocation) (drift : Node → Node)
    (nodes : List Node) :
    ∀ order : List String,
      (∀ u ∈ order, ∃ n, findNode nodes u = some n
        ∧ n.reservation.isSome = true) →
      attempt_pass a drift nodes order = (.exhausted (!order.isEmpty), order) := by
  intro order
  induction order with
  | nil => intro _; rfl
  | cons u rest ih =>
    intro h
    obtain ⟨n, hfind, hres⟩ := h u (List.mem_cons_self u rest)
    rw [attempt_pass_locked_step a drift nodes u rest n hfind hres,
      ih (fun v hv => h v (List.mem_cons_of_mem u hv))]
    rfl

theorem flatMap_const_length {α : Type} (g : Nat → List α) (N : Nat)
    (h : ∀ k, (g k).length = N) :
    ∀ l : List Nat, (l.flatMap g).length = l.length * N := by
  intro l
  induction l with
  | nil => simp
  | cons x xs ih =>
    simp [List.flatMap_cons, h x, ih, Nat.succ_mul, Nat.add_comm]

theorem allocate_node_all_locked (a : Allocation) (drift : Node → Node)
    (shuffle : Nat → List String → List String) (nodes : List Node)
    (candidates : List String) (hne : candidates ≠ [])
    (hlock : ∀ u ∈ candidates, ∃ n, findNode nodes u = some n
      ∧ n.reservation.isSome = true)
    (hshuf : ∀ k, (shuffle k candidates).Perm candidates) :
    ∀ (fuel passIdx : Nat),
      allocate_node a drift shuffle nodes candidates fuel passIdx
        = (allocFailed a (msgContended candidates.length), nodes,
           (List.range' passIdx fuel).flatMap (fun k => shuffle k candidates)) := by
  intro fuel
  induction fuel with
  | zero => intro passIdx; rfl
  | succ f ih =>
    intro passIdx
    have hperm := hshuf passIdx
    have hord : ∀ u ∈ shuffle passIdx candidates, ∃ n,
        findNode nodes u = some n ∧ n.reservation.isSome = true :=
      fun u hu => hlock u (hperm.mem_iff.mp hu)
    have hord_ne : shuffle passIdx candidates ≠ [] := by
      intro h0
      exact hne (List.length_eq_zero.mp ((h0 ▸ hperm.length_eq).symm ▸ rfl))
    have hflag : (!(shuffle passIdx candidates).isEmpty) = true := by
      cases h0 : shuffle passIdx candidates with
      | nil => exact absurd h0 hord_ne
      | cons x xs => rfl
    have hpass := attempt_pass_all_locked a drift nodes
      (shuffle passIdx candidates) hord
    rw [hflag] at hpass
    simp only [allocate_node, hpass, if_true, ih (passIdx + 1)]
    rw [List.range'_succ, List.flatMap_cons]

theorem attempt_pass_all_skipped (a : Allocation) (drift : Node → Node)
    (nodes : List Node) :
    ∀ order : List String,
      (∀ u ∈ order, ∃ n, findNode nodes u = some n ∧ n.reservation = none
        ∧ nodeMatches a (drift n) = false) →
      attempt_pass a drift nodes order = (.exhausted false, order) := by
  intro order
  induction order with
  | nil => intro _; rfl
  | cons u rest ih =>
    intro h
    obtain ⟨n, hfind, hres, hm⟩ := h u (List.mem_cons_self u rest)
    have hrest := ih (fun v hv => h v (List.mem_cons_of_mem u hv))
    simp [attempt_pass, hfind, hres, hm, hrest]

theorem attempt_pass_committed_inv (a : Allocation) (drift : Node → Node)
    (nodes : List Node) :
    ∀ (order : List String) (a2 : Allocation) (ns : List Node)
      (log : List String),
      attempt_pass a drift nodes order = (.committed a2 ns, log) →
      ∃ u n, findNode nodes u = some n ∧ n.reservation = none
        ∧ nodeMatches a (drift n) = true
        ∧ a2 = commitAlloc a (drift n)
        ∧ ns = updateNodes (fun m => m.uuid == u)
            (fun _ => commitNode a (drift n)) nodes := by
  intro order
  induction order with
  | nil =>
    intro a2 ns log h
    exact absurd h (by simp [attempt_pass])
  | cons u rest ih =>
    intro a2 ns log h
    cases hfind : findNode nodes u with
    | none =>
      cases hrec : attempt_pass a drift nodes rest with
      | mk o lg =>
        simp only [attempt_pass, hfind, hrec] at h
        obtain ⟨ho, -⟩ := Prod.mk.injEq .. ▸ h
        exact ih a2 ns lg (by rw [hrec, ho])
    | some n =>
      by_cases hres : n.reservation.isSome = true
      · rw [attempt_pass_locked_step a drift nodes u rest n hfind hres] at h
        cases hrec : attempt_pass a drift nodes rest with
        | mk o lg =>
          rw [hrec] at h
          cases o with
          | committed a3 ns3 =>
            simp only [Prod.mk.injEq, PassOutcome.committed.injEq] at h
            exact ih a2 ns lg (by rw [hrec, h.1.1, h.1.2])
          | exhausted s => simp at h
      · have hresn : n.reservation = none :=
          Option.not_isSome_iff_eq_none.mp hres
        have hresb : n.reservation.isSome = false := by rw [hresn]; rfl
        by_cases hm : nodeMatches a (drift n) = true
        · simp only [attempt_pass, hfind, hresb, hm, Bool.false_eq_true,
            if_true, if_false, Prod.mk.injEq, PassOutcome.committed.injEq] at h
          exact ⟨u, n, hfind, hresn, hm, h.1.1.symm, h.1.2.symm⟩
        · have hmb : nodeMatches a (drift n) = false := by simpa using hm
          cases hrec : attempt_pass a drift nodes rest with
          | mk o lg =>
            simp only [attempt_pass, hfind, hresb, hmb, Bool.false_eq_true,
              if_false, hrec] at h
            obtain ⟨ho, -⟩ := Prod.mk.injEq .. ▸ h
            exact ih a2 ns lg (by rw [hrec, ho])

theorem allocate_node_active_inv (a : Allocation) (drift : Node → Node)
    (shuffle : Nat → List String → List String) (nodes : List Node)
    (candidates : List String) :
    ∀ (fuel passIdx : Nat) (res : Allocation × List Node × List String),
      allocate_node a drift shuffle nodes candidates fuel passIdx = res →
      res.1.state = AllocState.active →
      ∃ u n, findNode nodes u = some n ∧ n.reservation = none
        ∧ nodeMatches a (drift n) = true
        ∧ res.1 = commitAlloc a (drift n)
        ∧ res.2.1 = updateNodes (fun m => m.uuid == u)
            (fun _ => commitNode a (drift n)) nodes := by
  intro fuel
  induction fuel with
  | zero =>
    intro passIdx res h hstate
    rw [← h] at hstate
    exact absurd hstate (by simp [allocate_node, allocFailed])
  | succ f ih =>
    intro passIdx res h hstate
    cases hpass : attempt_pass a drift nodes (shuffle passIdx candidates) with
    | mk o log =>
      cases o with
      | committed a2 ns =>
        simp only [allocate_node, hpass] at h
        obtain ⟨u, n, h1, h2, h3, h4, h5⟩ :=
          attempt_pass_committed_inv a drift nodes
            (shuffle passIdx candidates) a2 ns log hpass
        refine ⟨u, n, h1, h2, h3, ?_, ?_⟩
        · rw [← h]; exact h4
        · rw [← h]; exact h5
      | exhausted s =>
        cases s with
        | true =>
          cases hrec : allocate_node a drift shuffle nodes candidates f
              (passIdx + 1) with
          | mk ra rns =>
            simp only [allocate_node, hpass, hrec, if_true] at h
            obtain ⟨u, n, h1, h2, h3, h4, h5⟩ := ih (passIdx + 1) (ra, rns)
              hrec (by rw [← h] at hstate; exact hstate)
            refine ⟨u, n, h1, h2, h3, ?_, ?_⟩
            · rw [← h]; exact h4
            · rw [← h]; exact h5
        | false =>
          simp only [allocate_node, hpass, if_false] at h
          rw [← h] at hstate
          exact absurd hstate (by simp [allocFailed])

def nodeLockedA : Node := { nodeA with reservation := some "example.com" }

def nodeLockedB : Node := { nodeB with reservation := some "example.com" }

/-- C1: when the Scheduler completes an allocation successfully, the
allocation is `active` with no error, bound to the winning node, the
winning node's association fields reference the allocation, its lock is
released, and a subsequent acquire by a third party succeeds. -/
theorem scheduler_success_binds_winner (cfg : Config)
    (shuffle : Nat → List String → List String) (drift : Node → Node)
    (a : Allocation) (nodes : List Node)
    (hdrift : ∀ m, (drift m).uuid = m.uuid)
    (hactive : (do_allocate cfg shuffle drift a nodes).1.state
      = AllocState.active) :
    (do_allocate cfg shuffle drift a nodes).1.last_error = none
      ∧ ∃ w, w ∈ (do_allocate cfg shuffle drift a nodes).2.1
        ∧ (do_allocate cfg shuffle drift a nodes).1.node_id = some w.id
        ∧ w.instance_uuid = some a.uuid
        ∧ w.allocation_id = some a.id
        ∧ w.reservation = none
        ∧ ∃ r, acquire (do_allocate cfg shuffle drift a nodes).2.1 w.uuid
            "third-party" = .ok r := by
  by_cases hemp : ((nodes.filter (nodeMatches a)).map
      (fun n => n.uuid)).isEmpty = true
  · exfalso
    have hred : do_allocate cfg shuffle drift a nodes
        = if a.candidate_nodes.isEmpty then
            (allocFailed a (msgNoAvailable a.resource_class a.traits), nodes,
              [])
          else
            (allocFailed a (msgNoneRequested a.resource_class a.traits), nodes,
              []) := by
      simp [do_allocate, hemp]
    rw [hred] at hactive
    by_cases hc : a.candidate_nodes.isEmpty = true
    · rw [if_pos hc] at hactive
      exact absurd hactive (by simp [allocFailed])
    · rw [if_neg hc] at hactive
      exact absurd hactive (by simp [allocFailed])
  · have hempF : ((nodes.filter (nodeMatches a)).map
        (fun n => n.uuid)).isEmpty = false := by
      cases h0 : ((nodes.filter (nodeMatches a)).map (fun n => n.uuid)).isEmpty
      · rfl
      · exact absurd h0 hemp
    have hdo : do_allocate cfg shuffle drift a nodes
        = allocate_node a drift shuffle nodes
            ((nodes.filter (nodeMatches a)).map (fun n => n.uuid))
            (cfg.node_locked_retry_attempts + 1) 0 := by
      simp [do_allocate, hempF]
    obtain ⟨u, n0, hfind, hres, hm, h4, h5⟩ := allocate_node_active_inv a drift
      shuffle nodes ((nodes.filter (nodeMatches a)).map (fun n => n.uuid))
      (cfg.node_locked_retry_attempts + 1) 0 _ hdo.symm hactive
    have hfind2 : List.find? (fun m => m.uuid == u) nodes = some n0 := hfind
    have hu := List.find?_some hfind2
    have huEq : n0.uuid = u := beq_iff_eq.mp hu
    have hn0 : n0 ∈ nodes := List.mem_of_find?_eq_some hfind2
    have hwu : (commitNode a (drift n0)).uuid = u := by
      show (drift n0).uuid = u
      rw [hdrift n0, huEq]
    have hwmem : commitNode a (drift n0) ∈ updateNodes (fun m => m.uuid == u)
        (fun _ => commitNode a (drift n0)) nodes := by
      have hmm := List.mem_map_of_mem
        (fun m => if (m.uuid == u) then commitNode a (drift n0) else m) hn0
      simpa [updateNodes, hu] using hmm
    have hfw : findNode (updateNodes (fun m => m.uuid == u)
        (fun _ => commitNode a (drift n0)) nodes) u
        = some (commitNode a (drift n0)) :=
      find?_updateNodes (fun m => m.uuid == u) (fun _ => commitNode a (drift n0))
        (fun m _ => by simp [hwu]) nodes n0 hfind
    have hacq : acquire (updateNodes (fun m => m.uuid == u)
        (fun _ => commitNode a (drift n0)) nodes) u "third-party"
        = .ok ({ commitNode a (drift n0) with reservation := some "third-party" },
            updateNodes (fun m => m.uuid == u)
              (fun _ => { commitNode a (drift n0) with
                            reservation := some "third-party" })
              (updateNodes (fun m => m.uuid == u)
                (fun _ => commitNode a (drift n0)) nodes)) := by
      simp only [acquire, hfw]
      rfl
    refine ⟨by rw [h4]; rfl, commitNode a (drift n0), ?_, ?_, rfl, rfl, rfl, ?_⟩
    · rw [h5]; exact hwmem
    · rw [h4]; rfl
    · rw [h5, hwu]
      exact ⟨_, hacq⟩

/-- C1 witness: a single matching free node is successfully allocated. -/
theorem scheduler_success_binds_winner_witness :
    (do_allocate ⟨3⟩ noShuffle id allocA [nodeA]).1.state = AllocState.active
      ∧ ((do_allocate ⟨3⟩ noShuffle id allocA [nodeA]).1.last_error = none
        ∧ ∃ w, w ∈ (do_allocate ⟨3⟩ noShuffle id allocA [nodeA]).2.1
          ∧ (do_allocate ⟨3⟩ noShuffle id allocA [nodeA]).1.node_id = some w.id
          ∧ w.instance_uuid = some allocA.uuid
          ∧ w.allocation_id = some allocA.id
          ∧ w.reservation = none
          ∧ ∃ r, acquire (do_allocate ⟨3⟩ noShuffle id allocA [nodeA]).2.1
              w.uuid "third-party" = .ok r) :=
  ⟨rfl, scheduler_success_binds_winner ⟨3⟩ noShuffle id allocA [nodeA]
    (fun _ => rfl) rfl⟩

/-- C2: when all eligible candidates stay locked by another owner, the
Scheduler performs one full (shuffled) pass per retry — the attempt log is
the concatenation of the per-pass orderings, of total length
(passes x candidate count) — and ends in `error` with a reason naming the
candidate count. -/
theorem scheduler_contention_pass_structure (cfg : Config)
    (shuffle : Nat → List String → List String) (drift : Node → Node)
    (a : Allocation) (nodes : List Node) (candidates : List String)
    (hcand : candidates = (nodes.filter (nodeMatches a)).map (fun n => n.uuid))
    (hne : candidates ≠ [])
    (hnd : (nodes.map Node.uuid).Nodup)
    (hlock : ∀ n ∈ nodes, nodeMatches a n = true → n.reservation.isSome = true)
    (hshuf : ∀ k, (shuffle k candidates).Perm candidates) :
    do_allocate cfg shuffle drift a nodes
        = (allocFailed a (msgContended candidates.length), nodes,
           (List.range (cfg.node_locked_retry_attempts + 1)).flatMap
             (fun k => shuffle k candidates))
      ∧ ((List.range (cfg.node_locked_retry_attempts + 1)).flatMap
           (fun k => shuffle k candidates)).length
        = (cfg.node_locked_retry_attempts + 1) * candidates.length
      ∧ ∃ p s, msgContended candidates.length
          = p ++ toString candidates.length ++ s := by
  have hlock2 : ∀ u ∈ candidates, ∃ n, findNode nodes u = some n
      ∧ n.reservation.isSome = true := by
    intro u hu
    rw [hcand] at hu
    obtain ⟨m, hm, rfl⟩ := List.mem_map.mp hu
    obtain ⟨hmem, hmatch⟩ := List.mem_filter.mp hm
    exact ⟨m, findNode_of_mem_nodup nodes m hmem hnd, hlock m hmem hmatch⟩
  have hempF : candidates.isEmpty = false := by
    cases hc : candidates with
    | nil => exact absurd hc hne
    | cons x xs => rfl
  have hloop := allocate_node_all_locked a drift shuffle nodes candidates hne
    hlock2 hshuf (cfg.node_locked_retry_attempts + 1) 0
  have hdo : do_allocate cfg shuffle drift a nodes
      = allocate_node a drift shuffle nodes candidates
          (cfg.node_locked_retry_attempts + 1) 0 := by
    simp [do_allocate, ← hcand, hempF]
  refine ⟨?_, ?_, ?_⟩
  · rw [hdo, hloop, List.range_eq_range']
  · rw [flatMap_const_length (fun k => shuffle k candidates) candidates.length
      (fun k => (hshuf k).length_eq)
      (List.range (cfg.node_locked_retry_attempts + 1)), List.length_range]
  · exact ⟨"could not reserve any of ", " candidate nodes", rfl⟩

/-- C2 witness: two contended candidates and two retries give three passes
of two attempts each, ending in the contention error. -/
theorem scheduler_contention_pass_structure_witness :
    (["node-a", "node-b"] : List String)
        = ([nodeLockedA, nodeLockedB].filter (nodeMatches allocA)).map
            (fun n => n.uuid)
      ∧ (∀ n ∈ [nodeLockedA, nodeLockedB], nodeMatches allocA n = true →
          n.reservation.isSome = true)
      ∧ (do_allocate ⟨2⟩ noShuffle id allocA [nodeLockedA, nodeLockedB]
          = (allocFailed allocA
               (msgContended (["node-a", "node-b"] : List String).length),
             [nodeLockedA, nodeLockedB],
             (List.range (2 + 1)).flatMap
               (fun k => noShuffle k ["node-a", "node-b"]))
        ∧ ((List.range (2 + 1)).flatMap
             (fun k => noShuffle k ["node-a", "node-b"])).length
          = (2 + 1) * (["node-a", "node-b"] : List String).length
        ∧ ∃ p s, msgContended (["node-a", "node-b"] : List String).length
            = p ++ toString (["node-a", "node-b"] : List String).length ++ s) :=
  ⟨rfl, by decide,
    scheduler_contention_pass_structure ⟨2⟩ noShuffle id allocA
      [nodeLockedA, nodeLockedB] ["node-a", "node-b"] rfl (by decide)
      (by decide) (by decide) (fun _ => List.Perm.refl _)⟩

/-- C3: when every candidate locks but fails the post-lock re-validation,
the Scheduler performs exactly one pass (one attempt per candidate,
regardless of the configured retry budget) and ends in `error` with the
"all nodes were filtered out" reason. -/
theorem scheduler_post_lock_filtered_single_pass (cfg : Config)
    (shuffle : Nat → List String → List String) (drift : Node → Node)
    (a : Allocation) (nodes : List Node) (candidates : List String)
    (hcand : candidates = (nodes.filter (nodeMatches a)).map (fun n => n.uuid))
    (hne : candidates ≠ [])
    (hnd : (nodes.map Node.uuid).Nodup)
    (hskip : ∀ n ∈ nodes, nodeMatches a n = true →
      n.reservation = none ∧ nodeMatches a (drift n) = false)
    (hshuf : (shuffle 0 candidates).Perm candidates) :
    do_allocate cfg shuffle drift a nodes
        = (allocFailed a msgAllFiltered, nodes, shuffle 0 candidates)
      ∧ (do_allocate cfg shuffle drift a nodes).2.2.length = candidates.length
      ∧ (do_allocate cfg shuffle drift a nodes).1.last_error
        = some msgAllFiltered := by
  have hskip2 : ∀ u ∈ shuffle 0 candidates, ∃ n, findNode nodes u = some n
      ∧ n.reservation = none ∧ nodeMatches a (drift n) = false := by
    intro u hu
    have hu2 := hshuf.mem_iff.mp hu
    rw [hcand] at hu2
    obtain ⟨m, hm, rfl⟩ := List.mem_map.mp hu2
    obtain ⟨hmem, hmatch⟩ := List.mem_filter.mp hm
    obtain ⟨hr, hv⟩ := hskip m hmem hmatch
    exact ⟨m, findNode_of_mem_nodup nodes m hmem hnd, hr, hv⟩
  have hempF : candidates.isEmpty = false := by
    cases hc : candidates with
    | nil => exact absurd hc hne
    | cons x xs => rfl
  have hpass := attempt_pass_all_skipped a drift nodes (shuffle 0 candidates)
    hskip2
  have hdo : do_allocate cfg shuffle drift a nodes
      = (allocFailed a msgAllFiltered, nodes, shuffle 0 candidates) := by
    have h1 : do_allocate cfg shuffle drift a nodes
        = allocate_node a drift shuffle nodes candidates
            (cfg.node_locked_retry_attempts + 1) 0 := by
      simp [do_allocate, ← hcand, hempF]
    rw [h1]
    simp only [allocate_node, hpass, Bool.false_eq_true, if_false]
  refine ⟨hdo, ?_, by rw [hdo]; rfl⟩
  rw [hdo]
  exact hshuf.length_eq

/-- C3 witness: two candidates whose in-memory state flips to maintenance
before locking are both skipped in a single pass. -/
theorem scheduler_post_lock_filtered_single_pass_witness :
    (["node-a", "node-b"] : List String)
        = ([nodeA, nodeB].filter (nodeMatches allocA)).map (fun n => n.uuid)
      ∧ (∀ n ∈ [nodeA, nodeB], nodeMatches allocA n = true →
          n.reservation = none
            ∧ nodeMatches allocA ({ n with maintenance := true }) = false)
      ∧ (do_allocate ⟨2⟩ noShuffle (fun n => { n with maintenance := true })
            allocA [nodeA, nodeB]
          = (allocFailed allocA msgAllFiltered, [nodeA, nodeB],
             noShuffle 0 ["node-a", "node-b"])
        ∧ (do_allocate ⟨2⟩ noShuffle (fun n => { n with maintenance := true })
            allocA [nodeA, nodeB]).2.2.length
          = (["node-a", "node-b"] : List String).length
        ∧ (do_allocate ⟨2⟩ noShuffle (fun n => { n with maintenance := true })
            allocA [nodeA, nodeB]).1.last_error = some msgAllFiltered) :=
  ⟨rfl, by decide,
    scheduler_post_lock_filtered_single_pass ⟨2⟩ noShuffle
      (fun n => { n with maintenance := true }) allocA [nodeA, nodeB]
      ["node-a", "node-b"] rfl (by decide) (by decide) (by decide)
      (List.Perm.refl _)⟩

/-- C7 counterexample: with two contended candidates the attempt log is
node-a, node-b, node-a, node-b, node-a, node-b: immediately after the
alreadyLocked failure on node-a, the Scheduler's next lock attempt is on
node-b — it does advance to the next candidate. -/
theorem locked_advance_counterexample :
    acquire [nodeLockedA, nodeLockedB] "node-a" "w" = .error .alreadyLocked
      ∧ (do_allocate ⟨2⟩ noShuffle id allocA [nodeLockedA, nodeLockedB]).2.2
        = ["node-a", "node-b", "node-a", "node-b", "node-a", "node-b"]
      ∧ ("node-a" : String) ≠ "node-b" :=
  ⟨rfl, rfl, by decide⟩

/-- C7 (amended): when a lock acquisition fails with alreadyLocked, the
pass proceeds immediately to the remaining candidates — its attempt log is
the contended node followed by the attempts over the rest — and the
contention is recorded in the single pass-wide flag, so the retry budget
is consumed per pass, not per node. -/
theorem locked_contention_is_pass_wide (a : Allocation) (drift : Node → Node)
    (nodes : List Node) (u : String) (rest : List String) (n : Node)
    (hfind : findNode nodes u = some n) (hres : n.reservation.isSome = true) :
    (attempt_pass a drift nodes (u :: rest)).2
        = u :: (attempt_pass a drift nodes rest).2
      ∧ ∀ s, (attempt_pass a drift nodes rest).1 = PassOutcome.exhausted s →
          (attempt_pass a drift nodes (u :: rest)).1
            = PassOutcome.exhausted true := by
  rw [attempt_pass_locked_step a drift nodes u rest n hfind hres]
  cases hp : attempt_pass a drift nodes rest with
  | mk o log =>
    cases o with
    | committed a2 ns =>
      refine ⟨rfl, ?_⟩
      intro s hs
      simp at hs
    | exhausted s0 => exact ⟨rfl, fun s _ => rfl⟩

/-- C7 amended-claim witness: the contended head candidate is logged and
the pass continues with the tail. -/
theorem locked_contention_is_pass_wide_witness :
    findNode [nodeLockedA, nodeLockedB] "node-a" = some nodeLockedA
      ∧ nodeLockedA.reservation.isSome = true
      ∧ ((attempt_pass allocA id [nodeLockedA, nodeLockedB]
            ["node-a", "node-b"]).2
          = "node-a"
            :: (attempt_pass allocA id [nodeLockedA, nodeLockedB]
                  ["node-b"]).2
        ∧ ∀ s, (attempt_pass allocA id [nodeLockedA, nodeLockedB]
              ["node-b"]).1 = PassOutcome.exhausted s →
            (attempt_pass allocA id [nodeLockedA, nodeLockedB]
              ["node-a", "node-b"]).1 = PassOutcome.exhausted true) :=
  ⟨rfl, rfl, locked_contention_is_pass_wide allocA id
    [nodeLockedA, nodeLockedB] "node-a" ["node-b"] nodeLockedA rfl rfl⟩
